import Mathlib

/-!
Verification of the crssnt feed-generation core (src/functions/helper.js).

The JavaScript functions are shallowly embedded as Lean functions:

* JS strings become `String`; a JS value that may be `undefined`/`null`
  becomes an `Option`, except where the code itself only distinguishes
  truthiness of strings, in which case the empty string plays the role of
  the absent value (the code pipes such values through `||`).
* A JS `Date` that passed `isValid` is modelled as its epoch-millisecond
  timestamp (`Int`); an absent or invalid date is `none`.  `new Date()`
  (the current time) is threaded through as an explicit `now : Int`
  parameter wherever the code reads the clock.
* In-place mutation (`Array.prototype.sort`) is modelled by explicit state
  passing: the function returns the new contents of the array.
* `throw` becomes `Except.error`.
-/

namespace Crssnt

/-! Character-list implementations of the string operations the code uses
(`trim`, `startsWith`, `endsWith`, `slice`, `join`, `toLowerCase`).  The
Lean core versions run on byte positions via well-founded recursion, which
the kernel will not unfold; these versions compute by structural recursion
so that every concrete claim instance evaluates. -/

/-- `str.trim()`. -/
def trimStr (s : String) : String :=
  String.mk (((s.data.dropWhile Char.isWhitespace).reverse.dropWhile Char.isWhitespace).reverse)

/-- Whether one character list is an initial segment of another. -/
def listLeads : List Char → List Char → Bool
  | [], _ => true
  | _ :: _, [] => false
  | a :: as, b :: bs => a = b && listLeads as bs

/-- `str.startsWith(pfx)`. -/
def strStartsWith (s pfx : String) : Bool := listLeads pfx.data s.data

/-- `str.endsWith(sfx)`. -/
def strEndsWith (s sfx : String) : Bool := listLeads sfx.data.reverse s.data.reverse

/-- The first `n` characters (`str.slice(0, n)` / `take`). -/
def strTake (s : String) (n : Nat) : String := String.mk (s.data.take n)

/-- All but the first `n` characters. -/
def strDrop (s : String) (n : Nat) : String := String.mk (s.data.drop n)

/-- All but the last `n` characters. -/
def strDropRight (s : String) (n : Nat) : String :=
  String.mk (s.data.take (s.data.length - n))

/-- `arr.join(sep)`. -/
def joinWith (sep : String) : List String → String
  | [] => ""
  | [s] => s
  | s :: s2 :: rest => s ++ sep ++ joinWith sep (s2 :: rest)

/-- JS string `||`: the left operand unless it is falsy (empty). -/
def jsOr (a b : String) : String := if a = "" then b else a

/-- Conversion `s || undefined` used when the code stores an optional field. -/
def strToOpt (s : String) : Option String := if s = "" then none else some s

/-- `str.toLowerCase()` (the headers in question are ASCII). -/
def toLowerStr (s : String) : String := String.mk (s.data.map Char.toLower)

/-- Days from civil date (proleptic Gregorian), the standard civil-calendar
conversion used to give the modelled date parser real timestamps. -/
def daysFromCivil (y m d : Int) : Int :=
  let yAdj := if m ≤ 2 then y - 1 else y
  let era := Int.fdiv yAdj 400
  let yoe := yAdj - era * 400
  let mp := if m > 2 then m - 3 else m + 9
  let doy := Int.fdiv (153 * mp + 2) 5 + d - 1
  let doe := yoe * 365 + Int.fdiv yoe 4 - Int.fdiv yoe 100 + doy
  era * 146097 + doe - 719468

/-- Boundary model of `parseDateString` (helper.js lines 33-47), whose parsing
is delegated to the third-party date-fns `parseISO` / `new Date`: a valid date
string yields its timestamp, anything else yields `none` ("never throws").
The model accepts the ISO calendar-date form `YYYY-MM-DD` (midnight UTC) and
maps every other string to `none`. -/
def parseDateString (dateString : String) : Option Int :=
  match dateString.data with
  | [y1, y2, y3, y4, s1, m1, m2, s2, d1, d2] =>
    if s1 = '-' ∧ s2 = '-' ∧ y1.isDigit ∧ y2.isDigit ∧ y3.isDigit ∧ y4.isDigit ∧
       m1.isDigit ∧ m2.isDigit ∧ d1.isDigit ∧ d2.isDigit then
      let toN := fun (c : Char) => ((c.toNat - 48 : Nat) : Int)
      let y := 1000 * toN y1 + 100 * toN y2 + 10 * toN y3 + toN y4
      let m := 10 * toN m1 + toN m2
      let d := 10 * toN d1 + toN d2
      if 1 ≤ m ∧ m ≤ 12 ∧ 1 ≤ d ∧ d ≤ 31 then
        some (daysFromCivil y m d * 86400000)
      else none
    else none
  | _ => none

/-- Origin of an item under multi-source aggregation (`sourceInfo` in
`normalizeParsedFeed`). -/
structure SourceInfo where
  title : String
  url : String
  type : String
deriving Repr, DecidableEq

/-- The canonical item every adapter produces (the object literals pushed in
`parseSheetRowAutoMode`, `generateFeedManualModeInternal` and
`normalizeParsedFeed`).  `dateObject = some t` models a valid `Date` with
timestamp `t`; `none` models `undefined`, `null` or an invalid `Date`. -/
structure FeedItem where
  title : String := ""
  link : Option String := none
  dateObject : Option Int := none
  descriptionContent : String := ""
  id : Option String := none
  customFields : Option (List (String × String)) := none
  sourceInfo : Option SourceInfo := none
deriving Repr, DecidableEq

/-- The comparator of `sortFeedItems` (helper.js lines 54-64): descending by
valid date, dated before undated, 0 between two undated items. -/
def itemCmp (a b : FeedItem) : Int :=
  match a.dateObject, b.dateObject with
  | some ta, some tb => tb - ta
  | some _, none => -1
  | none, some _ => 1
  | none, none => 0

/-- One insertion step of a stable insertion sort: the new element goes after
every element the comparator does not order strictly after it. -/
def insertItem (x : FeedItem) : List FeedItem → List FeedItem
  | [] => [x]
  | y :: ys => if itemCmp y x ≤ 0 then y :: insertItem x ys else x :: y :: ys

/-- `sortFeedItems` (helper.js lines 49-65) on an array: `Array.prototype.sort`
is stable (ES2019) and `itemCmp` is a consistent comparator, so the call is
modelled as a stable insertion sort; the returned list is the array's contents
after the in-place sort. -/
def sortFeedItems (itemsData : List FeedItem) : List FeedItem :=
  itemsData.foldl (fun acc x => insertItem x acc) []

/-- A JS value passed to `sortFeedItems`: an array of items, or any
non-array value (tagged by a number so there are many of them). -/
inductive JSVal where
  | arr (items : List FeedItem)
  | other (v : Nat)
deriving Repr, DecidableEq

/-- `sortFeedItems` on an arbitrary argument (helper.js lines 49-53): a
non-array argument is logged and returned untouched (early `return`), an
array is sorted in place.  The function's effect on its argument is modelled
as the returned `JSVal`. -/
def sortFeedItemsJS : JSVal → JSVal
  | .arr l => .arr (sortFeedItems l)
  | .other v => .other v

/-- Boundary model of the auto-mode link test `new URL(cellString)`
succeeding (helper.js line 119); the heuristic only reaches it for strings
starting with `http`, for which acceptance means an `http(s)://` URL shape. -/
def jsUrlOk (s : String) : Bool :=
  strStartsWith s "http://" || strStartsWith s "https://"

/-- The title scan of `parseSheetRowAutoMode` (helper.js lines 103-111): the
first cell whose trimmed value is non-blank becomes the title and is removed;
all other cells (blanks before it included) stay, in order. -/
def findTitleCell : List String → Option (String × List String)
  | [] => none
  | c :: cs =>
    if trimStr c = "" then (findTitleCell cs).map (fun p => (p.1, c :: p.2))
    else some (trimStr c, cs)

/-- One step of the remaining-cell scan of `parseSheetRowAutoMode`
(helper.js lines 115-127): claim the first http URL as link, then the first
parseable date, and push everything else to the description pool. -/
def autoScanCell (st : Option String × Option Int × List String) (cell : String) :
    Option String × Option Int × List String :=
  let (link, dateObject, descCells) := st
  if link.isNone ∧ strStartsWith cell "http" ∧ jsUrlOk cell then
    (some cell, dateObject, descCells)
  else if dateObject.isNone ∧ (parseDateString cell).isSome then
    (link, parseDateString cell, descCells)
  else
    (link, dateObject, descCells ++ [cell])

/-- `parseSheetRowAutoMode` (helper.js lines 101-130). -/
def parseSheetRowAutoMode (row : List String) : Option FeedItem :=
  match findTitleCell row with
  | none => none
  | some (title, remainingRowData) =>
    let (link, dateObject, descCells) := remainingRowData.foldl autoScanCell (none, none, [])
    let descriptionContent := joinWith " " (descCells.filter (fun s => trimStr s ≠ ""))
    some { title, link, dateObject, descriptionContent }

/-- Characters the custom-field tag sanitizer keeps, the class `[a-zA-Z0-9_:-]`
of helper.js line 203. -/
def isTagChar (c : Char) : Bool :=
  c.isAlpha || c.isDigit || c = '_' || c = ':' || c = '-'

/-- The per-character action of `replace(/[^a-zA-Z0-9_:-]/g, '_')`. -/
def tagCharFix (c : Char) : Char := if isTagChar c then c else '_'

/-- The class `[a-zA-Z_:]` of the second regex of helper.js line 203: first
characters it leaves alone. -/
def isTagStart (c : Char) : Bool := c.isAlpha || c = '_' || c = ':'

/-- The custom-field tag sanitizer of helper.js line 203:
`header.replace(/[^a-zA-Z0-9_:-]/g, '_').replace(/^[^a-zA-Z_:]/, '_')`. -/
def sanitizeTag (s : String) : String :=
  match s.data.map tagCharFix with
  | [] => ""
  | c :: cs => String.mk ((if isTagStart c then c else '_') :: cs)

/-- The alias tables of `standardFieldAliases` (helper.js lines 152-157). -/
def titleAliases : List String := ["title"]

/-- Aliases accepted for the link column (helper.js line 154). -/
def linkAliases : List String := ["link", "url", "uri", "href"]

/-- Aliases accepted for the description column (helper.js line 155). -/
def descriptionAliases : List String :=
  ["description", "desc", "summary", "content", "content:encoded"]

/-- Aliases accepted for the date column (helper.js line 156). -/
def dateAliases : List String :=
  ["pubdate", "date", "published", "updated", "timestamp", "created"]

/-- The header-to-index maps built by the `headers.forEach` of
`generateFeedManualModeInternal` (helper.js lines 160-176): one optional
index per standard field plus the custom-header association list. -/
structure HeaderMaps where
  titleIdx : Option Nat := none
  linkIdx : Option Nat := none
  descriptionIdx : Option Nat := none
  dateIdx : Option Nat := none
  custom : List (String × Nat) := []
deriving Repr, DecidableEq

/-- Assignment to a JS object key: an existing key keeps its position and
gets the new value, a new key is appended. -/
def upsertAssoc {α : Type} (k : String) (v : α) : List (String × α) → List (String × α)
  | [] => [(k, v)]
  | (k0, v0) :: rest =>
    if k0 = k then (k0, v) :: rest else (k0, v0) :: upsertAssoc k v rest

/-- One header of the `headers.forEach` (helper.js lines 160-176): the first
alias match per standard field wins; an unmatched non-blank header becomes a
custom slot keyed by its trimmed original text. -/
def headerStep (maps : HeaderMaps) (h : Nat × String) : HeaderMaps :=
  let index := h.1
  let header := h.2
  if trimStr header = "" then maps
  else
    let lowerHeader := trimStr (toLowerStr header)
    if titleAliases.contains lowerHeader then
      if maps.titleIdx = none then { maps with titleIdx := some index } else maps
    else if linkAliases.contains lowerHeader then
      if maps.linkIdx = none then { maps with linkIdx := some index } else maps
    else if descriptionAliases.contains lowerHeader then
      if maps.descriptionIdx = none then { maps with descriptionIdx := some index } else maps
    else if dateAliases.contains lowerHeader then
      if maps.dateIdx = none then { maps with dateIdx := some index } else maps
    else { maps with custom := upsertAssoc (trimStr header) index maps.custom }

/-- The full header mapping pass of `generateFeedManualModeInternal`. -/
def buildHeaderMaps (headers : List String) : HeaderMaps :=
  headers.enum.foldl headerStep {}

/-- The custom-field collection of one data row (helper.js lines 197-208). -/
def collectCustomFields (custom : List (String × Nat)) (row : List String) :
    List (String × String) :=
  custom.foldl
    (fun cf p =>
      let customValue := row.getD p.2 ""
      if trimStr customValue ≠ "" then
        let tagName := sanitizeTag p.1
        if tagName ≠ "" then upsertAssoc tagName customValue cf else cf
      else cf)
    []

/-- One data row of `generateFeedManualModeInternal` (helper.js lines
184-217): `none` when the row is skipped as all-blank. -/
def rowToItem (maps : HeaderMaps) (row : List String) : Option FeedItem :=
  if row.all (fun cell => trimStr cell = "") then none
  else
    let title0 := match maps.titleIdx with
      | some i => trimStr (row.getD i "")
      | none => ""
    let title := if title0 = "" then "(Untitled)" else title0
    let link := match maps.linkIdx with
      | some i => trimStr (row.getD i "")
      | none => ""
    let descriptionContent := match maps.descriptionIdx with
      | some i => row.getD i ""
      | none => ""
    let dateObject := match maps.dateIdx with
      | some i => parseDateString (row.getD i "")
      | none => none
    let customFields := collectCustomFields maps.custom row
    some { title, link := strToOpt link, dateObject, descriptionContent,
           customFields := if customFields.isEmpty then none else some customFields }

/-- `generateFeedManualModeInternal` (helper.js lines 144-219). -/
def generateFeedManualModeInternal (values : List (List String)) : List FeedItem :=
  match values with
  | headers :: row1 :: rest => (row1 :: rest).filterMap (rowToItem (buildHeaderMaps headers))
  | _ => []

/-- The unsorted item list `generateItemData` builds before it sorts
(helper.js lines 133-138). -/
def generateRawItems (values : List (List String)) (mode : String) : List FeedItem :=
  if toLowerStr mode = "manual" then generateFeedManualModeInternal values
  else values.filterMap parseSheetRowAutoMode

/-- `generateItemData` (helper.js lines 132-142): adapt the rows, then sort
(the in-place `sortFeedItems` call is the returned list). -/
def generateItemData (values : List (List String)) (mode : String) : List FeedItem :=
  sortFeedItems (generateRawItems values mode)

/-- The char-limit action on one item (helper.js lines 237-244 and 380-387):
a description longer than the limit is sliced to it and an ellipsis appended;
any other item is returned untouched. -/
def charLimitItem (charLimit : Nat) (item : FeedItem) : FeedItem :=
  if charLimit < item.descriptionContent.length then
    { item with descriptionContent := strTake item.descriptionContent charLimit ++ "..." }
  else item

/-- The whole `.map` applying the char limit, together with the "was any item
truncated" flag the loop raises. -/
def applyCharLimit (charLimit : Nat) : List FeedItem → List FeedItem × Bool
  | [] => ([], false)
  | i :: is =>
    let rest := applyCharLimit charLimit is
    if charLimit < i.descriptionContent.length then
      (charLimitItem charLimit i :: rest.1, true)
    else
      (i :: rest.1, rest.2)

/-- The metadata `buildFeedData` assembles (helper.js lines 259-271). -/
structure SheetMeta where
  title : String
  link : String
  feedUrl : String
  description : String
  lastBuildDate : Int
  generator : String
  id : String
  itemCountLimited : Bool
  isPreview : Bool
  itemCharLimited : Bool
deriving Repr, DecidableEq

/-- The result of `buildFeedData`. -/
structure SheetFeedData where
  metadata : SheetMeta
  items : List FeedItem
deriving Repr, DecidableEq

/-- One sheet of the `Object.keys(sheetData).forEach` accumulation of
`buildFeedData` (helper.js lines 227-247): per-sheet adaptation and sorting,
then the per-sheet item limit, then the per-sheet char limit, concatenated
onto the running list; the two limited-flags are ORed across sheets. -/
def buildSheetsStep (mode : String) (itemLimit charLimit : Nat)
    (acc : List FeedItem × Bool × Bool) (sheet : String × List (List String)) :
    List FeedItem × Bool × Bool :=
  let itemsFromSheet := generateItemData sheet.2 mode
  let p1 := if itemsFromSheet.length > itemLimit
    then (itemsFromSheet.take itemLimit, true)
    else (itemsFromSheet, false)
  let p2 := applyCharLimit charLimit p1.1
  (acc.1 ++ p2.1, acc.2.1 || p1.2, acc.2.2 || p2.2)

/-- `buildFeedData` (helper.js lines 221-274).  `sheetData` is the sheet-name
keyed object in key order; `now` is the clock `new Date()` reads on line 255. -/
def buildFeedData (sheetData : List (String × List (List String))) (mode : String)
    (sheetTitle : String) (sheetID : String) (requestUrl : String)
    (itemLimit : Nat) (charLimit : Nat) (isPreview : Bool) (now : Int) : SheetFeedData :=
  let acc := sheetData.foldl (buildSheetsStep mode itemLimit charLimit) ([], false, false)
  let allItems := sortFeedItems acc.1
  let latestItemDate := match allItems.head? with
    | some i => match i.dateObject with
      | some d => d
      | none => now
    | none => now
  let feedDescription := "Feed from Google Sheet (" ++ mode ++ " mode). Generated by crssnt."
  { metadata := {
      title := jsOr sheetTitle "Google Sheet Feed"
      link := "https://docs.google.com/spreadsheets/d/" ++ sheetID
      feedUrl := requestUrl
      description := feedDescription
      lastBuildDate := latestItemDate
      generator := "https://github.com/tgel0/crssnt"
      id := "urn:google-sheet:" ++ sheetID
      itemCountLimited := acc.2.1
      isPreview := isPreview
      itemCharLimited := acc.2.2 }
    items := allItems }

/-- `str.substring(9, str.length - 3)` stripping of an explicit CDATA wrapper
(`_stripCdataWrapper`, helper.js lines 301-307). -/
def stripCdataWrapper (str : String) : String :=
  if strStartsWith str "<![CDATA[" && strEndsWith str "]]>" then
    strDropRight (strDrop str 9) 3
  else str

/-- What the cheerio selectors read from one RSS `<item>` (helper.js lines
326-336).  Element text is the raw string (`""` for a missing element, as
`.text()` and `.html() || ''` give). -/
structure RssItemSrc where
  title : String := ""
  link : String := ""
  guidPermalink : String := ""
  descriptionHtml : String := ""
  contentEncodedHtml : String := ""
  pubDate : String := ""
  guid : String := ""
deriving Repr, DecidableEq

/-- What the cheerio selectors read from an RSS `<channel>` (helper.js lines
313-336).  `atomLinkSelf` is the `atom:link[rel="self"]` href attribute
(`""` when absent). -/
structure RssChannelSrc where
  title : String := ""
  link : String := ""
  description : String := ""
  language : String := ""
  generator : String := ""
  lastBuildDate : String := ""
  atomLinkSelf : String := ""
  items : List RssItemSrc := []
deriving Repr, DecidableEq

/-- What the cheerio selectors read from one Atom `<entry>` (helper.js lines
351-361). -/
structure AtomEntrySrc where
  title : String := ""
  linkAlternate : String := ""
  linkFirst : String := ""
  contentHtml : String := ""
  summaryHtml : String := ""
  updated : String := ""
  published : String := ""
  id : String := ""
deriving Repr, DecidableEq

/-- What the cheerio selectors read from an Atom `<feed>` (helper.js lines
337-361).  `generatorUri` is the generator's `uri` attribute (`""` absent). -/
structure AtomFeedSrc where
  title : String := ""
  linkAlternate : String := ""
  linkFirst : String := ""
  subtitle : String := ""
  id : String := ""
  updated : String := ""
  xmlLang : String := ""
  languageElem : String := ""
  generator : String := ""
  generatorUri : String := ""
  entries : List AtomEntrySrc := []
deriving Repr, DecidableEq

/-- A parsed XML document as `normalizeParsedFeed` dialect-detects it
(helper.js lines 309-311): an `rss` element present, else a `feed` element
present, else neither. -/
inductive ParsedDoc where
  | rss (ch : RssChannelSrc)
  | atom (fd : AtomFeedSrc)
  | other
deriving Repr, DecidableEq

/-- One RSS item push (helper.js lines 326-336). -/
def rssItemToFeedItem (feedTitle sourceUrl : String) (it : RssItemSrc) : FeedItem :=
  let title := jsOr (trimStr it.title) "(Untitled)"
  let link := jsOr (trimStr it.link) (trimStr it.guidPermalink)
  let rawDescription := jsOr it.descriptionHtml it.contentEncodedHtml
  let descriptionContent := stripCdataWrapper rawDescription
  let dateObject := parseDateString (trimStr it.pubDate)
  let guid := jsOr (trimStr it.guid) link
  { title, link := strToOpt link, dateObject, descriptionContent,
    id := strToOpt guid,
    sourceInfo := some { title := feedTitle, url := sourceUrl, type := "rss" } }

/-- One Atom entry push (helper.js lines 351-361). -/
def atomEntryToFeedItem (feedTitle sourceUrl : String) (e : AtomEntrySrc) : FeedItem :=
  let title := jsOr (trimStr e.title) "(Untitled)"
  let link := jsOr e.linkAlternate e.linkFirst
  let rawDescription := jsOr e.contentHtml e.summaryHtml
  let descriptionContent := stripCdataWrapper rawDescription
  let updatedStrEntry := jsOr (trimStr e.updated) (trimStr e.published)
  let dateObject := parseDateString updatedStrEntry
  let id := jsOr (trimStr e.id) link
  { title, link := strToOpt link, dateObject, descriptionContent,
    id := strToOpt id,
    sourceInfo := some { title := feedTitle, url := sourceUrl, type := "atom" } }

/-- The per-dialect extraction of `normalizeParsedFeed` (helper.js lines
296-365): the feed-level fields and the raw item list, before sorting,
limiting and metadata assembly. -/
structure FeedParts where
  title : String
  link : String
  description : String
  language : String
  generator : String
  lastBuildDate : Option Int
  id : String
  sourceType : String
  items : List FeedItem
deriving Repr, DecidableEq

/-- The dialect branches of `normalizeParsedFeed` (helper.js lines 296-365). -/
def parsedFeedParts (doc : ParsedDoc) (sourceUrl : String) : FeedParts :=
  match doc with
  | .rss ch =>
    let feedTitle := trimStr ch.title
    let feedLink := trimStr ch.link
    let feedDescription := stripCdataWrapper (trimStr ch.description)
    let feedLanguage := jsOr (trimStr ch.language) "en"
    let feedGenerator := jsOr (trimStr ch.generator) "crssnt (converted)"
    let lastBuildDateStr := trimStr ch.lastBuildDate
    let feedLastBuildDate := if lastBuildDateStr ≠ "" then parseDateString lastBuildDateStr else none
    let feedId := jsOr ch.atomLinkSelf (jsOr feedLink sourceUrl)
    { title := feedTitle, link := feedLink, description := feedDescription
      language := feedLanguage, generator := feedGenerator
      lastBuildDate := feedLastBuildDate, id := feedId, sourceType := "rss"
      items := ch.items.map (rssItemToFeedItem feedTitle sourceUrl) }
  | .atom fd =>
    let feedTitle := trimStr fd.title
    let feedLink := jsOr fd.linkAlternate fd.linkFirst
    let feedDescription := stripCdataWrapper (trimStr fd.subtitle)
    let feedId := jsOr (trimStr fd.id) sourceUrl
    let updatedStr := trimStr fd.updated
    let feedLastBuildDate := if updatedStr ≠ "" then parseDateString updatedStr else none
    let feedLanguage := jsOr fd.xmlLang (jsOr (trimStr fd.languageElem) "en")
    let g0 := jsOr (trimStr fd.generator) "crssnt (converted)"
    let feedGenerator := if fd.generatorUri ≠ "" then g0 ++ " (" ++ fd.generatorUri ++ ")" else g0
    { title := feedTitle, link := feedLink, description := feedDescription
      language := feedLanguage, generator := feedGenerator
      lastBuildDate := feedLastBuildDate, id := feedId, sourceType := "atom"
      items := fd.entries.map (atomEntryToFeedItem feedTitle sourceUrl) }
  | .other =>
    { title := "Unknown or Invalid Feed Type", link := ""
      description := "Could not determine feed type (RSS or Atom) for URL: " ++ sourceUrl ++
        ". Please ensure it's a valid XML feed."
      language := "en", generator := "crssnt (converted)"
      lastBuildDate := none, id := sourceUrl, sourceType := "unknown", items := [] }

/-- The metadata `normalizeParsedFeed` returns (helper.js lines 394-407). -/
structure NormMeta where
  title : String
  link : String
  feedUrl : String
  description : String
  lastBuildDate : Option Int
  language : String
  generator : String
  id : String
  itemCountLimited : Bool
  itemCharLimited : Bool
  sourceType : String
deriving Repr, DecidableEq

/-- The result of `normalizeParsedFeed`. -/
structure NormFeedData where
  metadata : NormMeta
  items : List FeedItem
deriving Repr, DecidableEq

/-- The item-limit block of `normalizeParsedFeed` (helper.js lines 373-377):
a no-op when the limit is `Infinity` (`none`). -/
def applyItemLimit (itemLimit : Option Nat) (items : List FeedItem) :
    List FeedItem × Bool :=
  match itemLimit with
  | some n => if items.length > n then (items.take n, true) else (items, false)
  | none => (items, false)

/-- The char-limit block of `normalizeParsedFeed` (helper.js lines 378-388):
a no-op when the limit is `Infinity` (`none`). -/
def applyCharLimitOpt (charLimit : Option Nat) (items : List FeedItem) :
    List FeedItem × Bool :=
  match charLimit with
  | some c => applyCharLimit c items
  | none => (items, false)

/-- `normalizeParsedFeed` (helper.js lines 296-410).  `itemLimit` and
`charLimit` are `none` for the default `Infinity`. -/
def normalizeParsedFeed (doc : ParsedDoc) (sourceUrl : String)
    (itemLimit charLimit : Option Nat) : NormFeedData :=
  let parts := parsedFeedParts doc sourceUrl
  let items := sortFeedItems parts.items
  let p1 := applyItemLimit itemLimit items
  let p2 := applyCharLimitOpt charLimit p1.1
  let limitedItems := p2.1
  let feedLastBuildDate := match parts.lastBuildDate with
    | some d => some d
    | none => match limitedItems.head? with
      | some i => i.dateObject
      | none => none
  { metadata := {
      title := jsOr parts.title "Untitled Parsed Feed"
      link := jsOr parts.link sourceUrl
      feedUrl := sourceUrl
      description := parts.description
      lastBuildDate := feedLastBuildDate
      language := parts.language
      generator := parts.generator
      id := parts.id
      itemCountLimited := p1.2
      itemCharLimited := p2.2
      sourceType := parts.sourceType }
    items := limitedItems }

/-! ### SHA-1 (`crypto.createHash('sha1')`), UTF-8 and ISO date formatting

The code hashes strings with Node's SHA-1 and formats dates with date-fns'
`formatISO`.  SHA-1 is implemented here directly (RFC 3174) over the UTF-8
bytes of the string; `formatISO` is modelled at UTC offset `+00:00`. -/

/-- UTF-8 encoding of one character. -/
def utf8Char (c : Char) : List Nat :=
  let n := c.toNat
  if n < 128 then [n]
  else if n < 2048 then [192 + n / 64, 128 + n % 64]
  else if n < 65536 then [224 + n / 4096, 128 + (n / 64) % 64, 128 + n % 64]
  else [240 + n / 262144, 128 + (n / 4096) % 64, 128 + (n / 64) % 64, 128 + n % 64]

/-- UTF-8 bytes of a string. -/
def utf8Bytes (s : String) : List Nat := (s.data.map utf8Char).flatten

/-- 32-bit left rotation. -/
def rotl32 (n x : Nat) : Nat := ((x <<< n) ||| (x >>> (32 - n))) % 4294967296

/-- Big-endian byte expansion (`n` bytes of `v`). -/
def beBytes : Nat → Nat → List Nat
  | 0, _ => []
  | n + 1, v => beBytes n (v >>> 8) ++ [v &&& 255]

/-- SHA-1 padding: `0x80`, zeros to 56 mod 64, the bit length in 8 bytes. -/
def sha1Pad (msg : List Nat) : List Nat :=
  let len := msg.length
  let k := (119 - len % 64) % 64
  msg ++ 128 :: List.replicate k 0 ++ beBytes 8 (len * 8)

/-- Pack bytes into big-endian 32-bit words. -/
def toWords : List Nat → List Nat
  | a :: b :: c :: d :: rest => (((a * 256 + b) * 256 + c) * 256 + d) :: toWords rest
  | _ => []

/-- Extend the 16-word schedule to 80 words, newest first in `acc`. -/
def scheduleExtend : Nat → List Nat → List Nat
  | 0, acc => acc
  | n + 1, acc =>
    scheduleExtend n
      (rotl32 1 ((acc.getD 2 0) ^^^ (acc.getD 7 0) ^^^ (acc.getD 13 0) ^^^ (acc.getD 15 0)) :: acc)

/-- The 80-word message schedule of one block. -/
def sha1Schedule (ws : List Nat) : List Nat := (scheduleExtend 64 ws.reverse).reverse

/-- The SHA-1 round function. -/
def sha1F (t b c d : Nat) : Nat :=
  if t < 20 then (b &&& c) ||| ((b ^^^ 4294967295) &&& d)
  else if t < 40 then b ^^^ c ^^^ d
  else if t < 60 then (b &&& c) ||| (b &&& d) ||| (c &&& d)
  else b ^^^ c ^^^ d

/-- The SHA-1 round constants. -/
def sha1K (t : Nat) : Nat :=
  if t < 20 then 1518500249
  else if t < 40 then 1859775393
  else if t < 60 then 2400959708
  else 3395469782

/-- Compress one 16-word block into the running state. -/
def sha1Compress (h : Nat × Nat × Nat × Nat × Nat) (ws : List Nat) :
    Nat × Nat × Nat × Nat × Nat :=
  let fin := (sha1Schedule ws).foldl
    (fun (st : Nat × Nat × Nat × Nat × Nat × Nat) w =>
      let (a, b, c, d, e, t) := st
      let temp := (rotl32 5 a + sha1F t b c d + e + sha1K t + w) % 4294967296
      (temp, a, rotl32 30 b, c, d, t + 1))
    (h.1, h.2.1, h.2.2.1, h.2.2.2.1, h.2.2.2.2, 0)
  ((h.1 + fin.1) % 4294967296, (h.2.1 + fin.2.1) % 4294967296,
   (h.2.2.1 + fin.2.2.1) % 4294967296, (h.2.2.2.1 + fin.2.2.2.1) % 4294967296,
   (h.2.2.2.2 + fin.2.2.2.2.1) % 4294967296)

/-- Fold the compression over all 16-word blocks; the first argument is
fuel bounding the number of blocks (the word-list length suffices). -/
def sha1Blocks : Nat → (Nat × Nat × Nat × Nat × Nat) → List Nat →
    Nat × Nat × Nat × Nat × Nat
  | 0, h, _ => h
  | _, h, [] => h
  | fuel + 1, h, w :: ws =>
    sha1Blocks fuel (sha1Compress h ((w :: ws).take 16)) ((w :: ws).drop 16)

/-- Fold the compression over all 16-word blocks. -/
def sha1Loop (h : Nat × Nat × Nat × Nat × Nat) (ws : List Nat) :
    Nat × Nat × Nat × Nat × Nat :=
  sha1Blocks ws.length h ws

/-- One hex digit. -/
def hexDigit (n : Nat) : Char :=
  if n < 10 then Char.ofNat (48 + n) else Char.ofNat (87 + n)

/-- Lower-case hex of one 32-bit word. -/
def wordHex (w : Nat) : String :=
  String.mk [hexDigit ((w >>> 28) &&& 15), hexDigit ((w >>> 24) &&& 15),
             hexDigit ((w >>> 20) &&& 15), hexDigit ((w >>> 16) &&& 15),
             hexDigit ((w >>> 12) &&& 15), hexDigit ((w >>> 8) &&& 15),
             hexDigit ((w >>> 4) &&& 15), hexDigit (w &&& 15)]

/-- `crypto.createHash('sha1').update(s).digest('hex')` over the given bytes. -/
def sha1Hex (msg : List Nat) : String :=
  let h := sha1Loop (1732584193, 4023233417, 2562383102, 271733878, 3285377520)
    (toWords (sha1Pad msg))
  wordHex h.1 ++ wordHex h.2.1 ++ wordHex h.2.2.1 ++ wordHex h.2.2.2.1 ++ wordHex h.2.2.2.2

/-- SHA-1 hex digest of a string's UTF-8 bytes. -/
def sha1HexStr (s : String) : String := sha1Hex (utf8Bytes s)

/-- Civil date from days since epoch (proleptic Gregorian). -/
def civilFromDays (z0 : Int) : Int × Int × Int :=
  let z := z0 + 719468
  let era := Int.fdiv z 146097
  let doe := z - era * 146097
  let yoe := Int.fdiv (doe - Int.fdiv doe 1460 + Int.fdiv doe 36524 - Int.fdiv doe 146096) 365
  let y := yoe + era * 400
  let doy := doe - (365 * yoe + Int.fdiv yoe 4 - Int.fdiv yoe 100)
  let mp := Int.fdiv (5 * doy + 2) 153
  let d := doy - Int.fdiv (153 * mp + 2) 5 + 1
  let m := mp + (if mp < 10 then 3 else -9)
  (y + (if m ≤ 2 then 1 else 0), m, d)

/-- Two-digit zero padding. -/
def pad2 (n : Int) : String := if n < 10 then "0" ++ toString n else toString n

/-- Boundary model of date-fns `formatISO` applied to a timestamp, rendered
at UTC: `yyyy-MM-ddTHH:mm:ss+00:00`. -/
def formatISOUTC (ms : Int) : String :=
  let sec := Int.fdiv ms 1000
  let days := Int.fdiv sec 86400
  let secOfDay := sec - days * 86400
  let ymd := civilFromDays days
  let hh := Int.fdiv secOfDay 3600
  let mm := Int.fdiv (secOfDay - hh * 3600) 60
  let ss := secOfDay - hh * 3600 - mm * 60
  toString ymd.1 ++ "-" ++ pad2 ymd.2.1 ++ "-" ++ pad2 ymd.2.2 ++ "T" ++
    pad2 hh ++ ":" ++ pad2 mm ++ ":" ++ pad2 ss ++ "+00:00"

/-! ### Multi-source orchestrator -/

/-- The metadata `processMultipleUrls` assembles (helper.js lines 489-503). -/
structure CombinedMeta where
  title : String
  link : String
  feedUrl : String
  description : String
  lastBuildDate : Int
  generator : String
  id : String
  itemCountLimited : Bool
  itemCharLimited : Bool
  language : String
  groupByFeed : Bool
deriving Repr, DecidableEq

/-- The result of `processMultipleUrls` on success. -/
structure CombinedFeedData where
  metadata : CombinedMeta
  items : List FeedItem
deriving Repr, DecidableEq

/-- The accumulators of the source loop of `processMultipleUrls`
(helper.js lines 413-416). -/
structure GatherState where
  items : List FeedItem := []
  metas : List NormMeta := []
  anyItemLimited : Bool := false
  anyCharLimited : Bool := false
deriving Repr, DecidableEq

/-- One source URL with the outcome of `fetchUrlContent` plus
`parseXmlFeedWithCheerio`: a transport/parse failure (the thrown error), or
the parsed document.  This is the boundary the orchestrator consumes. -/
def SourceFetch : Type := String × Except Unit ParsedDoc

/-- One iteration of the `for (const sourceUrl of sourceUrls)` loop
(helper.js lines 418-440): a failed source is skipped, a source of unknown
type is skipped, any other source contributes its items, metadata and flags. -/
def gatherStep (itemLimit charLimit : Nat) (acc : GatherState)
    (src : String × Except Unit ParsedDoc) : GatherState :=
  match src.2 with
  | .error _ => acc
  | .ok doc =>
    let individualFeedData := normalizeParsedFeed doc src.1 (some itemLimit) (some charLimit)
    if individualFeedData.metadata.sourceType ≠ "unknown" then
      { items := acc.items ++ individualFeedData.items
        metas := acc.metas ++ [individualFeedData.metadata]
        anyItemLimited := acc.anyItemLimited || individualFeedData.metadata.itemCountLimited
        anyCharLimited := acc.anyCharLimited || individualFeedData.metadata.itemCharLimited }
    else acc

/-- The whole source loop of `processMultipleUrls`. -/
def gatherSources (sources : List (String × Except Unit ParsedDoc))
    (itemLimit charLimit : Nat) : GatherState :=
  sources.foldl (gatherStep itemLimit charLimit) {}

/-- The items one source contributes to the merge (closed form of one
`gatherStep`): nothing for a failed or unknown-dialect source. -/
def perSourceItems (itemLimit charLimit : Nat) (src : String × Except Unit ParsedDoc) :
    List FeedItem :=
  match src.2 with
  | .error _ => []
  | .ok doc =>
    let nf := normalizeParsedFeed doc src.1 (some itemLimit) (some charLimit)
    if nf.metadata.sourceType ≠ "unknown" then nf.items else []

/-- The latest-date reduce over per-source metadata (helper.js lines 464-469). -/
def latestMetaDate (metas : List NormMeta) : Option Int :=
  metas.foldl
    (fun latest meta => match meta.lastBuildDate with
      | some d => match latest with
        | some l => if d > l then some d else latest
        | none => some d
      | none => latest)
    none

/-- The latest-date item scan (helper.js lines 470-480). -/
def latestItemDateIn (items : List FeedItem) : Option Int :=
  items.foldl
    (fun latest item => match item.dateObject with
      | some d => match latest with
        | some l => if d > l then some d else latest
        | none => some d
      | none => latest)
    none

/-- The success tail of `processMultipleUrls` (helper.js lines 446-504),
given the gathered state; `now` is the clock of line 482. -/
def combineSuccess (sources : List (String × Except Unit ParsedDoc))
    (requestUrl : String) (itemLimit charLimit : Nat) (groupByFeed : Bool)
    (now : Int) (g : GatherState) : CombinedFeedData :=
  let finalLimitedItems := if groupByFeed then g.items else sortFeedItems g.items
  let fmTitle := match g.metas.head? with | some m => m.title | none => ""
  let fmFeedUrl := match g.metas.head? with | some m => m.feedUrl | none => ""
  let fmDescription := match g.metas.head? with | some m => m.description | none => ""
  let fmLanguage := match g.metas.head? with | some m => m.language | none => ""
  let combinedTitle := if g.metas.length > 1 then
      "Combined Feed from " ++ toString g.metas.length ++ " sources (up to " ++
        toString itemLimit ++ " items per source)"
    else jsOr fmTitle ("Feed from " ++ jsOr fmFeedUrl "source")
  let combinedId := "urn:crssnt:combined:" ++
    sha1HexStr (joinWith "," (sources.map Prod.fst))
  let overall0 : Option Int :=
    if ¬ groupByFeed then
      match finalLimitedItems.head? with
      | some i => i.dateObject
      | none => none
    else if g.metas.length > 0 then
      match latestMetaDate g.metas with
      | some d => some d
      | none => if finalLimitedItems.length > 0 then latestItemDateIn finalLimitedItems else none
    else none
  let overallLastBuildDate := overall0.getD now
  let combinedFeedDescription := if g.metas.length > 1 then
      "A combined feed generated from " ++ toString g.metas.length ++ " sources (up to " ++
        toString itemLimit ++ " items per source) via crssnt."
    else jsOr fmDescription
      ("Feed generated from " ++ jsOr fmFeedUrl "source" ++ " (up to " ++
        toString itemLimit ++ " items) via crssnt.")
  { metadata := {
      title := combinedTitle
      link := requestUrl
      feedUrl := requestUrl
      description := combinedFeedDescription
      lastBuildDate := overallLastBuildDate
      generator := "https://github.com/tgel0/crssnt (combined)"
      id := combinedId
      itemCountLimited := g.anyItemLimited
      itemCharLimited := g.anyCharLimited
      language := jsOr fmLanguage "en"
      groupByFeed := groupByFeed && sources.length > 1 }
    items := finalLimitedItems }

/-- `processMultipleUrls` (helper.js lines 412-505): gather all sources,
throw when no items were collected, otherwise combine. -/
def processMultipleUrls (sources : List (String × Except Unit ParsedDoc))
    (requestUrl : String) (itemLimit charLimit : Nat) (groupByFeed : Bool)
    (now : Int) : Except String CombinedFeedData :=
  let g := gatherSources sources itemLimit charLimit
  if g.items.isEmpty then
    .error "No valid feed items could be fetched or processed from the provided URLs."
  else
    .ok (combineSuccess sources requestUrl itemLimit charLimit groupByFeed now g)

/-! ### Render-time ID resolution -/

/-- The guid resolution of `generateRssItemXml` (helper.js lines 534-543):
the `isPermaLink` flag and the guid value (before XML escaping). -/
def rssItemGuid (itemData : FeedItem) : Bool × String :=
  match itemData.id with
  | some i => (decide (itemData.link = some i) && itemData.link.isSome, i)
  | none => match itemData.link with
    | some l => (true, l)
    | none =>
      let stringToHash := itemData.title ++ "::" ++ itemData.descriptionContent
      (false, sha1HexStr stringToHash)

/-- The `<updated>` string of `generateAtomEntryXml` (helper.js line 580):
the item's date when valid, else the render-time clock. -/
def atomEntryUpdatedString (itemData : FeedItem) (now : Int) : String :=
  match itemData.dateObject with
  | some t => formatISOUTC t
  | none => formatISOUTC now

/-- The entry-id resolution of `generateAtomEntryXml` (helper.js lines
586-596), with the feed metadata fields it reads (`feedMetadata.id`,
`feedMetadata.link`, `feedMetadata.title`, empty for absent) and the
render-time clock `now` feeding the `updatedString` of line 580. -/
def atomEntryId (itemData : FeedItem) (metaId metaLink metaTitle : String)
    (now : Int) : String :=
  let updatedString := atomEntryUpdatedString itemData now
  let title := jsOr itemData.title "Untitled Entry"
  let description := itemData.descriptionContent
  match itemData.id with
  | some i => i
  | none => match itemData.link with
    | some l =>
      if strStartsWith l "http" then l
      else
        let baseId := jsOr metaId (jsOr metaLink ("urn:uuid:" ++ sha1HexStr (jsOr metaTitle "feed")))
        baseId ++ ":" ++ sha1HexStr (title ++ "::" ++ description ++ "::" ++ updatedString)
    | none =>
      let baseId := jsOr metaId (jsOr metaLink ("urn:uuid:" ++ sha1HexStr (jsOr metaTitle "feed")))
      baseId ++ ":" ++ sha1HexStr (title ++ "::" ++ description ++ "::" ++ updatedString)

/-! ### Concrete fixtures used by witnesses and counterexamples -/

/-- A dated RSS item of a first source. -/
def rssItemA : RssItemSrc := { title := "A1", pubDate := "2024-01-02" }

/-- A dated RSS item of a third source. -/
def rssItemC : RssItemSrc := { title := "C1", pubDate := "2024-01-01" }

/-- A parsed document for the first source. -/
def docA : ParsedDoc := .rss { title := "Feed A", items := [rssItemA] }

/-- A parsed document for the third source. -/
def docC : ParsedDoc := .rss { title := "Feed C", items := [rssItemC] }

/-- Three source URLs of which exactly the middle one fails to fetch. -/
def threeSources : List (String × Except Unit ParsedDoc) :=
  [("https://a.example/feed", .ok docA),
   ("https://b.example/feed", .error ()),
   ("https://c.example/feed", .ok docC)]

/-- An RSS document with two dated items (for the limit witnesses). -/
def docTwoItems : ParsedDoc :=
  .rss { title := "Feed D",
         items := [{ title := "D1", pubDate := "2024-01-01",
                     descriptionHtml := "abcdefghij" },
                   { title := "D2", pubDate := "2024-01-02",
                     descriptionHtml := "xy" }] }

/-- An RSS document with one undated item and no feed-level date. -/
def docNoDates : ParsedDoc := .rss { title := "Feed N", items := [{ title := "N1" }] }

/-- An RSS document whose channel declares its own `lastBuildDate`. -/
def docDeclaredDate : ParsedDoc :=
  .rss { title := "Feed L", lastBuildDate := "2024-01-02",
         items := [{ title := "L1", pubDate := "2024-01-01" }] }

/-- An undated item with no native id and no link (forces the content-hash
fallback at render time). -/
def undatedItem : FeedItem := { title := "A", descriptionContent := "B" }

/-- A dated item with no native id and no link. -/
def datedItem : FeedItem :=
  { title := "A", descriptionContent := "B", dateObject := some 1704067200000 }

/-- Manual-mode sheet values of the spec scenario: a blank title cell. -/
def manualScenario : List (List String) :=
  [["title", "link", "date"], ["", "https://x.test/2", "2024-01-01"]]

/-! ## Lemmas about the sort -/

theorem itemCmp_swap (a b : FeedItem) : itemCmp b a = - itemCmp a b := by
  rcases ha : a.dateObject with _ | ta <;> rcases hb : b.dateObject with _ | tb <;>
    simp [itemCmp, ha, hb] <;> omega

theorem itemLe_of_not_le {x y : FeedItem} (h : ¬ itemCmp y x ≤ 0) : itemCmp x y ≤ 0 := by
  have hs := itemCmp_swap y x
  omega

theorem itemLe_trans {a b c : FeedItem} (h1 : itemCmp a b ≤ 0) (h2 : itemCmp b c ≤ 0) :
    itemCmp a c ≤ 0 := by
  rcases ha : a.dateObject with _ | ta <;> rcases hb : b.dateObject with _ | tb <;>
    rcases hc : c.dateObject with _ | tc <;> simp_all [itemCmp] <;> omega

theorem insertItem_perm (x : FeedItem) (l : List FeedItem) :
    (insertItem x l).Perm (x :: l) := by
  induction l with
  | nil => exact List.Perm.refl _
  | cons y ys ih =>
    by_cases h : itemCmp y x ≤ 0
    · simp only [insertItem, if_pos h]
      exact (ih.cons y).trans (List.Perm.swap x y ys)
    · simp only [insertItem, if_neg h]
      exact List.Perm.refl _

theorem pairwise_insertItem {l : List FeedItem} (x : FeedItem)
    (h : l.Pairwise (fun a b => itemCmp a b ≤ 0)) :
    (insertItem x l).Pairwise (fun a b => itemCmp a b ≤ 0) := by
  induction l with
  | nil => simp [insertItem]
  | cons y ys ih =>
    rcases List.pairwise_cons.mp h with ⟨hy, hys⟩
    by_cases hc : itemCmp y x ≤ 0
    · simp only [insertItem, if_pos hc]
      refine List.pairwise_cons.mpr ⟨?_, ih hys⟩
      intro z hz
      rcases List.mem_cons.mp ((insertItem_perm x ys).mem_iff.mp hz) with rfl | hz
      · exact hc
      · exact hy z hz
    · simp only [insertItem, if_neg hc]
      have hxy : itemCmp x y ≤ 0 := itemLe_of_not_le hc
      refine List.pairwise_cons.mpr ⟨?_, h⟩
      intro z hz
      rcases List.mem_cons.mp hz with rfl | hz
      · exact hxy
      · exact itemLe_trans hxy (hy z hz)

theorem sortAux_perm (l acc : List FeedItem) :
    (l.foldl (fun acc x => insertItem x acc) acc).Perm (acc ++ l) := by
  induction l generalizing acc with
  | nil => simp
  | cons x xs ih =>
    rw [List.foldl_cons]
    refine (ih (insertItem x acc)).trans ?_
    refine (((insertItem_perm x acc).append_right xs).trans ?_)
    simp only [List.cons_append]
    exact List.perm_middle.symm

theorem sortFeedItems_perm (l : List FeedItem) : (sortFeedItems l).Perm l := by
  simpa [sortFeedItems] using sortAux_perm l []

theorem sortAux_pairwise (l : List FeedItem) (acc : List FeedItem)
    (h : acc.Pairwise (fun a b => itemCmp a b ≤ 0)) :
    (l.foldl (fun acc x => insertItem x acc) acc).Pairwise (fun a b => itemCmp a b ≤ 0) := by
  induction l generalizing acc with
  | nil => exact h
  | cons x xs ih => exact ih _ (pairwise_insertItem x h)

theorem sortFeedItems_pairwise (l : List FeedItem) :
    (sortFeedItems l).Pairwise (fun a b => itemCmp a b ≤ 0) :=
  sortAux_pairwise l [] (List.Pairwise.nil)

theorem insertItem_undated {x : FeedItem} (hx : x.dateObject = none) (l : List FeedItem) :
    insertItem x l = l ++ [x] := by
  induction l with
  | nil => rfl
  | cons y ys ih =>
    have hc : itemCmp y x ≤ 0 := by
      rcases hy : y.dateObject with _ | t <;> simp [itemCmp, hy, hx]
    simp only [insertItem, if_pos hc, ih, List.cons_append]

theorem filter_insertItem_dated {x : FeedItem} (hx : x.dateObject.isNone = false)
    (l : List FeedItem) :
    (insertItem x l).filter (fun i => i.dateObject.isNone) =
      l.filter (fun i => i.dateObject.isNone) := by
  induction l with
  | nil => simp [insertItem, hx]
  | cons y ys ih =>
    by_cases hc : itemCmp y x ≤ 0
    · simp only [insertItem, if_pos hc, List.filter_cons, ih]
    · simp only [insertItem, if_neg hc, List.filter_cons, hx]
      simp

theorem filter_sortAux (l acc : List FeedItem) :
    ((l.foldl (fun acc x => insertItem x acc) acc).filter (fun i => i.dateObject.isNone)) =
      acc.filter (fun i => i.dateObject.isNone) ++ l.filter (fun i => i.dateObject.isNone) := by
  induction l generalizing acc with
  | nil => simp
  | cons x xs ih =>
    rw [List.foldl_cons, ih]
    by_cases hx : x.dateObject.isNone
    · have hnone : x.dateObject = none := Option.isNone_iff_eq_none.mp hx
      rw [insertItem_undated hnone, List.filter_append, List.filter_cons]
      simp [hx]
    · rw [filter_insertItem_dated (Bool.eq_false_iff.mpr hx), List.filter_cons]
      simp [hx]

theorem sortFeedItems_filter_undated (l : List FeedItem) :
    (sortFeedItems l).filter (fun i => i.dateObject.isNone) =
      l.filter (fun i => i.dateObject.isNone) := by
  simpa [sortFeedItems] using filter_sortAux l []

theorem itemLe_dated {a b : FeedItem} (h : itemCmp a b ≤ 0) :
    (b.dateObject.isSome = true → a.dateObject.isSome = true) ∧
      (∀ ta tb, a.dateObject = some ta → b.dateObject = some tb → tb ≤ ta) := by
  rcases ha : a.dateObject with _ | ta <;> rcases hb : b.dateObject with _ | tb <;>
    simp_all [itemCmp] <;> omega

/-! ## Claim theorems -/

/-- C1: after the aggregation sort, every item with a valid date precedes
every item without one, dated items appear newest-first (non-increasing
timestamps), the undated items keep their original relative order, and the
result is a permutation of the input. -/
theorem sortFeedItems_order_spec (l : List FeedItem) :
    (sortFeedItems l).Perm l
  ∧ (sortFeedItems l).Pairwise
      (fun a b => b.dateObject.isSome = true → a.dateObject.isSome = true)
  ∧ (sortFeedItems l).Pairwise
      (fun a b => ∀ ta tb, a.dateObject = some ta → b.dateObject = some tb → tb ≤ ta)
  ∧ (sortFeedItems l).filter (fun i => i.dateObject.isNone) =
      l.filter (fun i => i.dateObject.isNone) := by
  refine ⟨sortFeedItems_perm l, ?_, ?_, sortFeedItems_filter_undated l⟩
  · exact (sortFeedItems_pairwise l).imp (fun h => (itemLe_dated h).1)
  · exact (sortFeedItems_pairwise l).imp (fun h => (itemLe_dated h).2)

theorem gatherSources_items_aux (sources : List (String × Except Unit ParsedDoc))
    (il cl : Nat) (acc : GatherState) :
    (sources.foldl (gatherStep il cl) acc).items =
      acc.items ++ (sources.map (perSourceItems il cl)).flatten := by
  induction sources generalizing acc with
  | nil => simp
  | cons s ss ih =>
    rw [List.foldl_cons, ih]
    rcases s with ⟨url, r⟩
    rcases r with e | doc
    · simp [gatherStep, perSourceItems]
    · by_cases h : (normalizeParsedFeed doc url (some il) (some cl)).metadata.sourceType ≠ "unknown"
      · simp [gatherStep, perSourceItems, h]
      · simp only [not_not] at h
        simp [gatherStep, perSourceItems, h]

theorem gatherSources_items (sources : List (String × Except Unit ParsedDoc)) (il cl : Nat) :
    (gatherSources sources il cl).items = (sources.map (perSourceItems il cl)).flatten := by
  simpa [gatherSources] using gatherSources_items_aux sources il cl {}

theorem processMultipleUrls_error_iff (sources : List (String × Except Unit ParsedDoc))
    (requestUrl : String) (il cl : Nat) (gb : Bool) (now : Int) :
    (∃ e, processMultipleUrls sources requestUrl il cl gb now = Except.error e) ↔
      (gatherSources sources il cl).items = [] := by
  unfold processMultipleUrls
  by_cases h : (gatherSources sources il cl).items.isEmpty
  · simp [h, List.isEmpty_iff.mp h]
  · simp only [h, Bool.false_eq_true, if_false]
    constructor
    · rintro ⟨e, he⟩
      exact absurd he (by simp)
    · intro he
      exact absurd (List.isEmpty_iff.mpr he) h

theorem processMultipleUrls_ok (sources : List (String × Except Unit ParsedDoc))
    (requestUrl : String) (il cl : Nat) (gb : Bool) (now : Int)
    (h : (gatherSources sources il cl).items ≠ []) :
    processMultipleUrls sources requestUrl il cl gb now =
      Except.ok (combineSuccess sources requestUrl il cl gb now
        (gatherSources sources il cl)) := by
  unfold processMultipleUrls
  simp [List.isEmpty_iff, h]

theorem combineSuccess_items (sources : List (String × Except Unit ParsedDoc))
    (requestUrl : String) (il cl : Nat) (gb : Bool) (now : Int) (g : GatherState) :
    (combineSuccess sources requestUrl il cl gb now g).items =
      if gb then g.items else sortFeedItems g.items := by
  unfold combineSuccess
  by_cases hgb : gb <;> simp [hgb]

/-- C2 (amended): a fetch or parse failure of one source drops only that
source; the merged result is the concatenation, in caller order, of the
items of the sources that succeeded with a recognized dialect; and the
operation raises its hard failure exactly when that merged item list is
empty (in particular whenever every source fails, but also when every
successful source contributes zero items). -/
theorem processMultipleUrls_partial_failure_spec
    (sources : List (String × Except Unit ParsedDoc)) (requestUrl : String)
    (il cl : Nat) (gb : Bool) (now : Int) :
    ((∃ e, processMultipleUrls sources requestUrl il cl gb now = Except.error e) ↔
      (gatherSources sources il cl).items = [])
  ∧ (gatherSources sources il cl).items = (sources.map (perSourceItems il cl)).flatten
  ∧ (∀ url rest, gatherSources ((url, Except.error ()) :: rest) il cl = gatherSources rest il cl)
  ∧ ((gatherSources sources il cl).items ≠ [] →
      processMultipleUrls sources requestUrl il cl gb now =
        Except.ok (combineSuccess sources requestUrl il cl gb now (gatherSources sources il cl))
      ∧ (combineSuccess sources requestUrl il cl gb now (gatherSources sources il cl)).items =
          if gb then (gatherSources sources il cl).items
          else sortFeedItems (gatherSources sources il cl).items) := by
  refine ⟨processMultipleUrls_error_iff sources requestUrl il cl gb now,
    gatherSources_items sources il cl, ?_, ?_⟩
  · intro url rest
    rfl
  · intro h
    exact ⟨processMultipleUrls_ok sources requestUrl il cl gb now h,
      combineSuccess_items sources requestUrl il cl gb now _⟩

/-- C2 witness: fetching 3 source URLs of which exactly the middle one fails
yields, with no error, exactly the items of the two successful sources. -/
theorem processMultipleUrls_partial_failure_witness :
    processMultipleUrls threeSources "https://req.example" 50 500 false 0 =
      Except.ok (combineSuccess threeSources "https://req.example" 50 500 false 0
        (gatherSources threeSources 50 500))
  ∧ (gatherSources threeSources 50 500).items =
      [rssItemToFeedItem "Feed A" "https://a.example/feed" rssItemA,
       rssItemToFeedItem "Feed C" "https://c.example/feed" rssItemC] :=
  ⟨((processMultipleUrls_partial_failure_spec threeSources "https://req.example"
      50 500 false 0).2.2.2 (by decide)).1, by decide⟩

/-- C2 counterexample: a single source whose fetch and parse succeed but whose
valid RSS document contains no items still makes the whole operation raise the
hard failure, so the failure is not reserved for "every source fails". -/
theorem processMultipleUrls_failure_without_source_failure :
    processMultipleUrls [("https://ok.example/feed", Except.ok (ParsedDoc.rss {}))]
      "https://req.example" 50 500 false 0 =
      Except.error "No valid feed items could be fetched or processed from the provided URLs." := by
  rfl

/-- C10: the sort stage's effect on its argument: an array argument ends up
holding a permutation of exactly the original items; a non-array argument is
returned untouched (no exception); and the pipeline stages consume the sorted
state (`generateItemData` hands on the sorted adapter output, the ungrouped
merge hands on the sorted gathered items). -/
theorem sortFeedItems_in_place_spec :
    (∀ l, sortFeedItemsJS (JSVal.arr l) = JSVal.arr (sortFeedItems l))
  ∧ (∀ l, (sortFeedItems l).Perm l)
  ∧ (∀ v, sortFeedItemsJS (JSVal.other v) = JSVal.other v)
  ∧ (∀ values mode, generateItemData values mode = sortFeedItems (generateRawItems values mode))
  ∧ (∀ sources requestUrl il cl now fd,
      processMultipleUrls sources requestUrl il cl false now = Except.ok fd →
      fd.items = sortFeedItems (gatherSources sources il cl).items) := by
  refine ⟨fun l => rfl, sortFeedItems_perm, fun v => rfl, fun values mode => rfl, ?_⟩
  intro sources requestUrl il cl now fd h
  by_cases hemp : (gatherSources sources il cl).items = []
  · rw [processMultipleUrls, List.isEmpty_iff.mpr hemp] at h
    simp at h
  · rw [processMultipleUrls_ok sources requestUrl il cl false now hemp] at h
    cases h
    simpa using combineSuccess_items sources requestUrl il cl false now _

/-- C10 witness: the merge conjunct applied to the concrete three-source run. -/
theorem sortFeedItems_in_place_witness :
    (combineSuccess threeSources "https://req.example" 50 500 false 0
        (gatherSources threeSources 50 500)).items =
      sortFeedItems (gatherSources threeSources 50 500).items :=
  sortFeedItems_in_place_spec.2.2.2.2 threeSources "https://req.example" 50 500 0
    (combineSuccess threeSources "https://req.example" 50 500 false 0
      (gatherSources threeSources 50 500))
    (processMultipleUrls_ok threeSources "https://req.example" 50 500 false 0 (by decide))

/-- C8: an XML document recognized as neither RSS nor Atom makes the adapter
return (not throw) an empty item list with descriptive placeholder metadata
and dialect "unknown". -/
theorem normalizeParsedFeed_unknown_spec (sourceUrl : String) (il cl : Option Nat) :
    normalizeParsedFeed ParsedDoc.other sourceUrl il cl =
      { metadata := {
          title := "Unknown or Invalid Feed Type"
          link := sourceUrl
          feedUrl := sourceUrl
          description := "Could not determine feed type (RSS or Atom) for URL: " ++
            sourceUrl ++ ". Please ensure it's a valid XML feed."
          lastBuildDate := none
          language := "en"
          generator := "crssnt (converted)"
          id := sourceUrl
          itemCountLimited := false
          itemCharLimited := false
          sourceType := "unknown" }
        items := [] } := by
  rcases il with _ | n <;> rcases cl with _ | c <;>
    simp [normalizeParsedFeed, parsedFeedParts, sortFeedItems, applyItemLimit,
      applyCharLimitOpt, applyCharLimit, jsOr]

theorem applyCharLimit_fst (c : Nat) (l : List FeedItem) :
    (applyCharLimit c l).1 = l.map (charLimitItem c) := by
  induction l with
  | nil => rfl
  | cons i is ih =>
    by_cases h : c < i.descriptionContent.length <;>
      simp [applyCharLimit, h, ih, charLimitItem]

theorem applyCharLimit_snd (c : Nat) (l : List FeedItem) :
    (applyCharLimit c l).2 = l.any (fun i => decide (c < i.descriptionContent.length)) := by
  induction l with
  | nil => rfl
  | cons i is ih =>
    by_cases h : c < i.descriptionContent.length <;> simp [applyCharLimit, h, ih]

theorem charLimitItem_title (c : Nat) (i : FeedItem) :
    (charLimitItem c i).title = i.title := by
  unfold charLimitItem; split <;> rfl

theorem charLimitItem_date (c : Nat) (i : FeedItem) :
    (charLimitItem c i).dateObject = i.dateObject := by
  unfold charLimitItem; split <;> rfl

theorem normalizeParsedFeed_items (doc : ParsedDoc) (url : String) (il cl : Option Nat) :
    (normalizeParsedFeed doc url il cl).items =
      (applyCharLimitOpt cl
        (applyItemLimit il (sortFeedItems (parsedFeedParts doc url).items)).1).1 := rfl

theorem normalizeParsedFeed_countFlag (doc : ParsedDoc) (url : String) (il cl : Option Nat) :
    (normalizeParsedFeed doc url il cl).metadata.itemCountLimited =
      (applyItemLimit il (sortFeedItems (parsedFeedParts doc url).items)).2 := rfl

theorem normalizeParsedFeed_charFlag (doc : ParsedDoc) (url : String) (il cl : Option Nat) :
    (normalizeParsedFeed doc url il cl).metadata.itemCharLimited =
      (applyCharLimitOpt cl
        (applyItemLimit il (sortFeedItems (parsedFeedParts doc url).items)).1).2 := rfl

/-- C4: with a configured item limit N (at least 1) and a sorted per-source
item list of length M: if M > N the limited output has exactly N items and
the itemCountLimited flag is raised; if M is at most N the list is left
untouched and the flag stays false — both in the XML adapter's limit step
and in the per-sheet limit step of buildFeedData. -/
theorem itemLimit_spec (N : Nat) (hN : 1 ≤ N) :
    (∀ doc url,
      ((parsedFeedParts doc url).items.length > N →
        (normalizeParsedFeed doc url (some N) none).items.length = N ∧
        (normalizeParsedFeed doc url (some N) none).metadata.itemCountLimited = true)
    ∧ ((parsedFeedParts doc url).items.length ≤ N →
        (normalizeParsedFeed doc url (some N) none).items =
          sortFeedItems (parsedFeedParts doc url).items ∧
        (normalizeParsedFeed doc url (some N) none).metadata.itemCountLimited = false))
  ∧ (∀ name values mode sheetTitle sheetID requestUrl cl isPreview now,
      ((generateItemData values mode).length > N →
        (buildFeedData [(name, values)] mode sheetTitle sheetID requestUrl
            N cl isPreview now).items.length = N ∧
        (buildFeedData [(name, values)] mode sheetTitle sheetID requestUrl
            N cl isPreview now).metadata.itemCountLimited = true)
    ∧ ((generateItemData values mode).length ≤ N →
        (buildFeedData [(name, values)] mode sheetTitle sheetID requestUrl
            N cl isPreview now).items.length = (generateItemData values mode).length ∧
        (buildFeedData [(name, values)] mode sheetTitle sheetID requestUrl
            N cl isPreview now).metadata.itemCountLimited = false)) := by
  constructor
  · intro doc url
    have hlen : (sortFeedItems (parsedFeedParts doc url).items).length =
        (parsedFeedParts doc url).items.length :=
      (sortFeedItems_perm (parsedFeedParts doc url).items).length_eq
    constructor
    · intro hM
      have hgt : (sortFeedItems (parsedFeedParts doc url).items).length > N := by omega
      rw [normalizeParsedFeed_items, normalizeParsedFeed_countFlag]
      simp only [applyItemLimit, if_pos hgt, applyCharLimitOpt]
      refine ⟨?_, trivial⟩
      rw [List.length_take]
      omega
    · intro hM
      have hle : ¬ (sortFeedItems (parsedFeedParts doc url).items).length > N := by omega
      rw [normalizeParsedFeed_items, normalizeParsedFeed_countFlag]
      simp only [applyItemLimit, if_neg hle, applyCharLimitOpt]
      constructor <;> trivial
  · intro name values mode sheetTitle sheetID requestUrl cl isPreview now
    constructor
    · intro hM
      simp only [buildFeedData, buildSheetsStep, List.foldl_cons, List.foldl_nil,
        if_pos hM, List.nil_append, Bool.false_or]
      refine ⟨?_, trivial⟩
      rw [(sortFeedItems_perm _).length_eq, applyCharLimit_fst, List.length_map,
        List.length_take]
      omega
    · intro hM
      have hle : ¬ (generateItemData values mode).length > N := by omega
      simp only [buildFeedData, buildSheetsStep, List.foldl_cons, List.foldl_nil,
        if_neg hle, List.nil_append, Bool.false_or]
      refine ⟨?_, trivial⟩
      rw [(sortFeedItems_perm _).length_eq, applyCharLimit_fst, List.length_map]

/-- C4 witness: the two-item document and a two-row sheet against limits 1
and 5. -/
theorem itemLimit_witness :
    (normalizeParsedFeed docTwoItems "https://d.example" (some 1) none).items.length = 1
  ∧ (normalizeParsedFeed docTwoItems "https://d.example" (some 1) none).metadata.itemCountLimited = true
  ∧ (normalizeParsedFeed docTwoItems "https://d.example" (some 5) none).items =
      sortFeedItems (parsedFeedParts docTwoItems "https://d.example").items
  ∧ (normalizeParsedFeed docTwoItems "https://d.example" (some 5) none).metadata.itemCountLimited = false :=
  ⟨(((itemLimit_spec 1 (by decide)).1 docTwoItems "https://d.example").1 (by decide)).1,
   (((itemLimit_spec 1 (by decide)).1 docTwoItems "https://d.example").1 (by decide)).2,
   (((itemLimit_spec 5 (by decide)).1 docTwoItems "https://d.example").2 (by decide)).1,
   (((itemLimit_spec 5 (by decide)).1 docTwoItems "https://d.example").2 (by decide)).2⟩

/-- C5: with a configured char limit L (at least 1): the adapter's output is
the sorted list with every over-long description cut to exactly the first L
characters plus the ellipsis marker, shorter descriptions (and their items)
byte-for-byte untouched; the feed-wide itemCharLimited flag is exactly
"some item was over the limit", so it stays false when none was; and the
per-sheet step of buildFeedData raises the same flag the same way. -/
theorem charLimit_spec (L : Nat) (hL : 1 ≤ L) :
    (∀ doc url,
      (normalizeParsedFeed doc url none (some L)).items =
        (sortFeedItems (parsedFeedParts doc url).items).map (charLimitItem L)
    ∧ (normalizeParsedFeed doc url none (some L)).metadata.itemCharLimited =
        (sortFeedItems (parsedFeedParts doc url).items).any
          (fun i => decide (L < i.descriptionContent.length)))
  ∧ (∀ i : FeedItem, i.descriptionContent.length ≤ L → charLimitItem L i = i)
  ∧ (∀ i : FeedItem, L < i.descriptionContent.length →
      (charLimitItem L i).descriptionContent = strTake i.descriptionContent L ++ "..."
    ∧ (charLimitItem L i).descriptionContent.length = L + 3)
  ∧ (∀ name values mode sheetTitle sheetID requestUrl il isPreview now,
      (buildFeedData [(name, values)] mode sheetTitle sheetID requestUrl
          il L isPreview now).metadata.itemCharLimited =
        (if (generateItemData values mode).length > il
         then (generateItemData values mode).take il
         else generateItemData values mode).any
          (fun i => decide (L < i.descriptionContent.length))) := by
  refine ⟨?_, ?_, ?_, ?_⟩
  · intro doc url
    rw [normalizeParsedFeed_items, normalizeParsedFeed_charFlag]
    simp only [applyItemLimit, applyCharLimitOpt]
    exact ⟨applyCharLimit_fst L _, applyCharLimit_snd L _⟩
  · intro i h
    unfold charLimitItem
    rw [if_neg (by omega)]
  · intro i h
    refine ⟨by unfold charLimitItem; rw [if_pos h], ?_⟩
    unfold charLimitItem
    rw [if_pos h]
    show (strTake i.descriptionContent L ++ "...").length = L + 3
    rw [String.length_append]
    show (i.descriptionContent.data.take L).length + 3 = L + 3
    rw [List.length_take]
    have : L ≤ i.descriptionContent.data.length := Nat.le_of_lt h
    omega
  · intro name values mode sheetTitle sheetID requestUrl il isPreview now
    by_cases h : (generateItemData values mode).length > il <;>
      simp [buildFeedData, buildSheetsStep, h, applyCharLimit_snd]

/-- C5 witness: a 10-character description against limits 4 and 500. -/
theorem charLimit_witness :
    (charLimitItem 4 { descriptionContent := "abcdefghij" }).descriptionContent = "abcd..."
  ∧ (charLimitItem 4 { descriptionContent := "abcdefghij" }).descriptionContent.length = 7
  ∧ charLimitItem 500 ({ descriptionContent := "abcdefghij" } : FeedItem) =
      { descriptionContent := "abcdefghij" }
  ∧ (normalizeParsedFeed docTwoItems "https://d.example" none (some 500)).metadata.itemCharLimited = false :=
  ⟨by
    have h := ((charLimit_spec 4 (by decide)).2.2.1
      { descriptionContent := "abcdefghij" } (by decide)).1
    rw [h]; decide,
   by
    have h := ((charLimit_spec 4 (by decide)).2.2.1
      { descriptionContent := "abcdefghij" } (by decide)).2
    simpa using h,
   (charLimit_spec 500 (by decide)).2.1 { descriptionContent := "abcdefghij" } (by decide),
   by
    have h := ((charLimit_spec 500 (by decide)).1 docTwoItems "https://d.example").2
    rw [h]; decide⟩

theorem findTitleCell_title_ne {row : List String} {t : String} {rest : List String}
    (h : findTitleCell row = some (t, rest)) : t ≠ "" := by
  induction row generalizing rest with
  | nil => exact absurd h (by simp [findTitleCell])
  | cons c cs ih =>
    unfold findTitleCell at h
    by_cases hc : trimStr c = ""
    · rw [if_pos hc] at h
      rcases hopt : findTitleCell cs with _ | p
      · rw [hopt] at h; exact Option.noConfusion h
      · rw [hopt] at h
        simp only [Option.map_some'] at h
        cases h
        exact ih hopt
    · rw [if_neg hc] at h
      simp only [Option.some.injEq, Prod.mk.injEq] at h
      rw [← h.1]
      exact hc

theorem rowToItem_title_ne {maps : HeaderMaps} {row : List String} {item : FeedItem}
    (h : rowToItem maps row = some item) : item.title ≠ "" := by
  unfold rowToItem at h
  by_cases hall : row.all (fun cell => trimStr cell = "")
  · rw [if_pos hall] at h; exact absurd h (by simp)
  · rw [if_neg hall] at h
    simp only [Option.some.injEq] at h
    subst h
    by_cases h0 : (match maps.titleIdx with
      | some i => trimStr (row.getD i "")
      | none => "") = ""
    · simp only [h0, if_pos]
      decide
    · simp only [if_neg h0]
      exact h0

theorem parts_title_ne (doc : ParsedDoc) (url : String) :
    ∀ item ∈ (parsedFeedParts doc url).items, item.title ≠ "" := by
  intro item hmem
  have hjs : ∀ a : String, jsOr a "(Untitled)" ≠ "" := by
    intro a
    unfold jsOr
    by_cases ha : a = ""
    · rw [if_pos ha]; decide
    · rw [if_neg ha]; exact ha
  rcases doc with ch | fd | _
  · simp only [parsedFeedParts, List.mem_map] at hmem
    rcases hmem with ⟨src, _, rfl⟩
    exact hjs _
  · simp only [parsedFeedParts, List.mem_map] at hmem
    rcases hmem with ⟨src, _, rfl⟩
    exact hjs _
  · simp [parsedFeedParts] at hmem

theorem title_of_mem_normalize {doc : ParsedDoc} {url : String} {il cl : Option Nat}
    {item : FeedItem} (h : item ∈ (normalizeParsedFeed doc url il cl).items) :
    ∃ i0 ∈ (parsedFeedParts doc url).items, item.title = i0.title := by
  rw [normalizeParsedFeed_items] at h
  have h2 : ∃ i1 ∈ (applyItemLimit il (sortFeedItems (parsedFeedParts doc url).items)).1,
      item.title = i1.title := by
    rcases cl with _ | c
    · exact ⟨item, h, rfl⟩
    · simp only [applyCharLimitOpt, applyCharLimit_fst, List.mem_map] at h
      rcases h with ⟨i1, hi1, rfl⟩
      exact ⟨i1, hi1, charLimitItem_title c i1⟩
  rcases h2 with ⟨i1, hi1, ht⟩
  have h3 : i1 ∈ sortFeedItems (parsedFeedParts doc url).items := by
    rcases il with _ | n
    · exact hi1
    · simp only [applyItemLimit] at hi1
      by_cases hgt : (sortFeedItems (parsedFeedParts doc url).items).length > n
      · rw [if_pos hgt] at hi1
        exact List.take_subset n _ hi1
      · rw [if_neg hgt] at hi1
        exact hi1
  exact ⟨i1, (sortFeedItems_perm _).mem_iff.mp h3, ht⟩

/-- C6: every item any adapter produces has a non-empty title: a missing or
blank title cell yields the "(Untitled)" placeholder, never the empty
string — in auto mode, in manual mode, and in the XML feed adapter. -/
theorem adapter_title_nonempty_spec :
    (∀ row item, parseSheetRowAutoMode row = some item → item.title ≠ "")
  ∧ (∀ values item, item ∈ generateFeedManualModeInternal values → item.title ≠ "")
  ∧ (∀ doc url il cl item,
      item ∈ (normalizeParsedFeed doc url il cl).items → item.title ≠ "") := by
  refine ⟨?_, ?_, ?_⟩
  · intro row item h
    unfold parseSheetRowAutoMode at h
    rcases hf : findTitleCell row with _ | p
    · rw [hf] at h; exact absurd h (by simp)
    · rw [hf] at h
      simp only [Option.some.injEq] at h
      subst h
      exact findTitleCell_title_ne hf
  · intro values item h
    unfold generateFeedManualModeInternal at h
    rcases values with _ | ⟨headers, _ | ⟨row1, rest⟩⟩
    · exact absurd h (by simp)
    · exact absurd h (by simp)
    · rcases List.mem_filterMap.mp h with ⟨row, _, hrow⟩
      exact rowToItem_title_ne hrow
  · intro doc url il cl item h
    rcases title_of_mem_normalize h with ⟨i0, hi0, ht⟩
    rw [ht]
    exact parts_title_ne doc url i0 hi0

/-- C6 witness: the spec scenario — manual-mode header row
["title","link","date"] with a blank title cell gives the "(Untitled)"
placeholder, and a concrete RSS item keeps a non-empty title. -/
theorem adapter_title_nonempty_witness :
    (generateFeedManualModeInternal manualScenario).map FeedItem.title = ["(Untitled)"]
  ∧ ((generateFeedManualModeInternal manualScenario).getD 0 {}).title ≠ ""
  ∧ ((normalizeParsedFeed docTwoItems "https://d.example"
      (some 50) (some 500)).items.getD 0 {}).title ≠ "" :=
  ⟨by decide,
   adapter_title_nonempty_spec.2.1 manualScenario _ (by decide),
   adapter_title_nonempty_spec.2.2 docTwoItems "https://d.example" (some 50) (some 500) _
     (by decide)⟩

theorem normalizeParsedFeed_lastBuildDate (doc : ParsedDoc) (url : String)
    (il cl : Option Nat) :
    (normalizeParsedFeed doc url il cl).metadata.lastBuildDate =
      (match (parsedFeedParts doc url).lastBuildDate with
       | some d => some d
       | none =>
         match (normalizeParsedFeed doc url il cl).items.head? with
         | some i => i.dateObject
         | none => none) := rfl

theorem normalize_items_pairwise_dates (doc : ParsedDoc) (url : String)
    (il cl : Option Nat) :
    (normalizeParsedFeed doc url il cl).items.Pairwise
      (fun a b => ∀ ta tb, a.dateObject = some ta → b.dateObject = some tb → tb ≤ ta) := by
  rw [normalizeParsedFeed_items]
  have h0 : (sortFeedItems (parsedFeedParts doc url).items).Pairwise
      (fun a b => ∀ ta tb, a.dateObject = some ta → b.dateObject = some tb → tb ≤ ta) :=
    (sortFeedItems_pairwise _).imp (fun h => (itemLe_dated h).2)
  have h1 : ((applyItemLimit il (sortFeedItems (parsedFeedParts doc url).items)).1).Pairwise
      (fun a b => ∀ ta tb, a.dateObject = some ta → b.dateObject = some tb → tb ≤ ta) := by
    rcases il with _ | n
    · exact h0
    · simp only [applyItemLimit]
      split
      · exact h0.sublist (List.take_sublist n _)
      · exact h0
  rcases cl with _ | c
  · exact h1
  · simp only [applyCharLimitOpt, applyCharLimit_fst]
    rw [List.pairwise_map]
    refine h1.imp (fun {a b} h ta tb hta htb => h ta tb ?_ ?_)
    · rwa [charLimitItem_date] at hta
    · rwa [charLimitItem_date] at htb

theorem head_date_max {items : List FeedItem}
    (hp : items.Pairwise
      (fun a b => ∀ ta tb, a.dateObject = some ta → b.dateObject = some tb → tb ≤ ta))
    {item : FeedItem} (hmem : item ∈ items) {t t0 : Int}
    (hhead : items.head?.bind FeedItem.dateObject = some t0)
    (ht : item.dateObject = some t) : t ≤ t0 := by
  cases items with
  | nil => cases hmem
  | cons i0 rest =>
    have h0 : i0.dateObject = some t0 := hhead
    rcases List.mem_cons.mp hmem with rfl | hmem
    · rw [h0] at ht
      cases ht
      exact le_refl t
    · exact (List.pairwise_cons.mp hp).1 item hmem t0 t h0 ht

theorem processOk_lastBuildDate (sources : List (String × Except Unit ParsedDoc))
    (requestUrl : String) (il cl : Nat) (now : Int) (fd : CombinedFeedData)
    (h : processMultipleUrls sources requestUrl il cl false now = Except.ok fd) :
    fd.metadata.lastBuildDate = (fd.items.head?.bind FeedItem.dateObject).getD now := by
  by_cases hemp : (gatherSources sources il cl).items = []
  · rw [processMultipleUrls, List.isEmpty_iff.mpr hemp] at h
    simp at h
  · rw [processMultipleUrls_ok sources requestUrl il cl false now hemp] at h
    cases h
    cases hh : (sortFeedItems (gatherSources sources il cl).items).head? with
    | none => simp [combineSuccess, hh]
    | some i => simp [combineSuccess, hh]

/-- C7 (amended): the adapter's returned feed-level build date equals the
feed's own declared (parseable) date when present, otherwise the date of the
first sorted item — which is maximal among all item dates, i.e. the newest —
and otherwise there is no build date at all in the adapter's metadata: the
current-time substitution for a completely dateless document happens
downstream (in the orchestrator and the renderers), not in the adapter. -/
theorem adapter_buildDate_spec (doc : ParsedDoc) (url : String) (il cl : Option Nat) :
    (∀ d, (parsedFeedParts doc url).lastBuildDate = some d →
      (normalizeParsedFeed doc url il cl).metadata.lastBuildDate = some d)
  ∧ ((parsedFeedParts doc url).lastBuildDate = none →
      (normalizeParsedFeed doc url il cl).metadata.lastBuildDate =
        (normalizeParsedFeed doc url il cl).items.head?.bind FeedItem.dateObject)
  ∧ (∀ item t t0, item ∈ (normalizeParsedFeed doc url il cl).items →
      (normalizeParsedFeed doc url il cl).items.head?.bind FeedItem.dateObject = some t0 →
      item.dateObject = some t → t ≤ t0)
  ∧ (∀ sources requestUrl il2 cl2 now fd,
      processMultipleUrls sources requestUrl il2 cl2 false now = Except.ok fd →
      fd.metadata.lastBuildDate = (fd.items.head?.bind FeedItem.dateObject).getD now) := by
  refine ⟨?_, ?_, ?_, ?_⟩
  · intro d hd
    rw [normalizeParsedFeed_lastBuildDate, hd]
  · intro hd
    rw [normalizeParsedFeed_lastBuildDate, hd]
    cases (normalizeParsedFeed doc url il cl).items.head? <;> rfl
  · intro item t t0 hmem hhead ht
    exact head_date_max (normalize_items_pairwise_dates doc url il cl) hmem hhead ht
  · intro sources requestUrl il2 cl2 now fd h
    exact processOk_lastBuildDate sources requestUrl il2 cl2 now fd h

/-- C7 witness: a feed with a declared date keeps it; a feed without one
takes its newest item's date; a dateless feed run through the orchestrator
gets the clock value (12345) substituted there. -/
theorem adapter_buildDate_witness :
    (normalizeParsedFeed docDeclaredDate "https://l.example" (some 50) (some 500)).metadata.lastBuildDate =
      some 1704153600000
  ∧ (normalizeParsedFeed docTwoItems "https://d.example" (some 50) (some 500)).metadata.lastBuildDate =
      (normalizeParsedFeed docTwoItems "https://d.example" (some 50) (some 500)).items.head?.bind
        FeedItem.dateObject
  ∧ (combineSuccess [("https://n.example/feed", Except.ok docNoDates)] "https://req.example"
      50 500 false 12345
      (gatherSources [("https://n.example/feed", Except.ok docNoDates)] 50 500)).metadata.lastBuildDate = 12345 :=
  ⟨(adapter_buildDate_spec docDeclaredDate "https://l.example" (some 50) (some 500)).1
      1704153600000 (by decide),
   (adapter_buildDate_spec docTwoItems "https://d.example" (some 50) (some 500)).2.1 (by decide),
   by
    have h := (adapter_buildDate_spec ParsedDoc.other "" none none).2.2.2
      [("https://n.example/feed", Except.ok docNoDates)] "https://req.example" 50 500 12345
      (combineSuccess [("https://n.example/feed", Except.ok docNoDates)] "https://req.example"
        50 500 false 12345
        (gatherSources [("https://n.example/feed", Except.ok docNoDates)] 50 500))
      (processMultipleUrls_ok [("https://n.example/feed", Except.ok docNoDates)]
        "https://req.example" 50 500 false 12345 (by decide))
    rw [h]
    decide⟩

/-- C7 counterexample: for a document with no date anywhere the adapter's
returned metadata carries no build date at all (`none`), not the current
time. -/
theorem adapter_buildDate_none_cex :
    (normalizeParsedFeed docNoDates "https://n.example/feed"
      (some 50) (some 500)).metadata.lastBuildDate = none := by
  decide

theorem isTagChar_tagCharFix (c : Char) : isTagChar (tagCharFix c) = true := by
  unfold tagCharFix
  by_cases h : isTagChar c
  · rw [if_pos h]; exact h
  · rw [if_neg h]; decide

theorem isTagStart_isTagChar {c : Char} (h : isTagStart c = true) : isTagChar c = true := by
  simp only [isTagStart, Bool.or_eq_true, decide_eq_true_eq] at h
  rcases h with (h | h) | h <;> simp [isTagChar, h]

/-- C9 (amended): the sanitized custom-field tag of any non-empty header
contains only characters from [A-Za-z0-9_:-] (every other character is
replaced by an underscore), is non-empty, and its first character is a
letter, an underscore, or a colon — the code's first-character class
[a-zA-Z_:] also admits the colon, so "starts with a letter or underscore"
does not hold for colon-initial headers. -/
theorem sanitizeTag_spec (s : String) (h : s ≠ "") :
    (sanitizeTag s).data.all isTagChar = true
  ∧ (sanitizeTag s).data ≠ []
  ∧ isTagStart ((sanitizeTag s).data.getD 0 '_') = true := by
  obtain ⟨l⟩ := s
  cases l with
  | nil => exact absurd (by rfl) h
  | cons c cs =>
    have hred : sanitizeTag (String.mk (c :: cs)) =
        String.mk ((if isTagStart (tagCharFix c) then tagCharFix c else '_') ::
          cs.map tagCharFix) := rfl
    rw [hred]
    refine ⟨?_, by simp, ?_⟩
    · simp only [List.all_cons, List.all_eq_true, Bool.and_eq_true]
      constructor
      · by_cases hs : isTagStart (tagCharFix c)
        · rw [if_pos hs]; exact isTagChar_tagCharFix c
        · rw [if_neg hs]; decide
      · intro x hx
        rcases List.mem_map.mp hx with ⟨y, _, rfl⟩
        exact isTagChar_tagCharFix y
    · show isTagStart ((if isTagStart (tagCharFix c) then tagCharFix c else '_') ::
        cs.map tagCharFix).head! = true
      by_cases hs : isTagStart (tagCharFix c)
      · simp only [List.head!, if_pos hs]
        exact hs
      · simp only [List.head!, if_neg hs]
        decide

/-- C9 witness: the header "my header!" sanitizes to a tag made of allowed
characters only, non-empty, starting with an allowed first character. -/
theorem sanitizeTag_witness :
    (sanitizeTag "my header!").data.all isTagChar = true
  ∧ (sanitizeTag "my header!").data ≠ []
  ∧ isTagStart ((sanitizeTag "my header!").data.getD 0 '_') = true :=
  sanitizeTag_spec "my header!" (by decide)

/-- C9 counterexample: the unmatched manual-mode header ":a" sanitizes to
":a", whose first character is the colon — neither a letter nor an
underscore — and that tag reaches the produced item's custom fields. -/
theorem sanitizeTag_colon_cex :
    sanitizeTag ":a" = ":a"
  ∧ ((sanitizeTag ":a").data.getD 0 '_').isAlpha = false
  ∧ ((sanitizeTag ":a").data.getD 0 '_') ≠ '_'
  ∧ (generateFeedManualModeInternal [["title", ":a"], ["T", "v"]]).map
      FeedItem.customFields = [some [(":a", "v")]] :=
  ⟨by decide, by decide, by decide, by decide⟩

/-- C3 (amended): the RSS guid content-hash fallback is a function of the
item's title and description only, hence idempotent across repeated
renderings; the Atom entry-id resolution is idempotent across renderings for
every item with a valid date, but an undated item's content hash includes
the render-time clock (through the resolved updated string), so renderings
at different instants disagree for those. -/
theorem idFallback_spec :
    (∀ i1 i2 : FeedItem, i1.id = none → i2.id = none → i1.link = none → i2.link = none →
      i1.title = i2.title → i1.descriptionContent = i2.descriptionContent →
      rssItemGuid i1 = rssItemGuid i2)
  ∧ (∀ (item : FeedItem) (metaId metaLink metaTitle : String) (t now1 now2 : Int),
      item.dateObject = some t →
      atomEntryId item metaId metaLink metaTitle now1 =
        atomEntryId item metaId metaLink metaTitle now2) := by
  constructor
  · intro i1 i2 h1 h2 h3 h4 ht hd
    unfold rssItemGuid
    rw [h1, h2, h3, h4, ht, hd]
  · intro item metaId metaLink metaTitle t now1 now2 hdate
    unfold atomEntryId atomEntryUpdatedString
    rw [hdate]

/-- C3 witness: two items sharing title and description resolve to the same
RSS guid, and a dated item's Atom entry id is unchanged across two different
rendering instants. -/
theorem idFallback_witness :
    rssItemGuid undatedItem = rssItemGuid datedItem
  ∧ atomEntryId datedItem "urn:f" "" "" 0 = atomEntryId datedItem "urn:f" "" "" 999999 :=
  ⟨idFallback_spec.1 undatedItem datedItem rfl rfl rfl rfl rfl rfl,
   idFallback_spec.2 datedItem "urn:f" "" "" 1704067200000 0 999999 rfl⟩

set_option maxRecDepth 100000 in
/-- C3 counterexample: an item with no date, no id and no link resolves to
two different Atom entry ids when rendered one second apart: the content
hash is not idempotent for undated items. -/
theorem idFallback_now_dependence_cex :
    atomEntryId undatedItem "urn:f" "" "" 0 ≠ atomEntryId undatedItem "urn:f" "" "" 1000 := by
  decide

end Crssnt
